import Mathlib

/-!
Verification of the cxxhttp HTTP/1.1 protocol core: content negotiation
(include/cxxhttp/negotiate.h), status-line parsing and formatting
(include/cxxhttp/http-status.h), and session reply/counter behaviour
(src/test-case/session.cpp together with the component description).

Strings are embedded as `String` or `List Char`; `std::set` values are
embedded as ordered, duplicate-free lists inserted through the source's
comparator; C++ `int` is embedded as `Int`.
-/

namespace Cxxhttp

/-- `cxxhttp::isspace`, `std::isspace` in the default C locale. -/
def isWS (c : Char) : Bool :=
  c = ' ' || c = '\t' || c = '\n' || c = '\x0b' || c = '\x0c' || c = '\r'

/-- `cxxhttp::trim`: remove whitespace on either side of a string. -/
def trimL (l : List Char) : List Char :=
  ((l.dropWhile isWS).reverse.dropWhile isWS).reverse

/-- One round of `std::getline` splitting: the list of fields of `l`
delimited by `sep`.  As with `getline`, an empty input yields no field and a
trailing delimiter does not produce a trailing empty field. -/
def getlines (sep : Char) : List Char → List (List Char)
  | [] => []
  | c :: cs =>
    if c = sep then [] :: getlines sep cs
    else
      match getlines sep cs with
      | [] => [[c]]
      | i :: is => (c :: i) :: is

/-- `cxxhttp::split`: split on a delimiter, trimming every field. -/
def splitSep (sep : Char) (l : List Char) : List (List Char) :=
  (getlines sep l).map trimL

/-- Lexicographic comparison of two character lists, `std::string::operator<`. -/
def lexLt : List Char → List Char → Bool
  | [], [] => false
  | [], _ :: _ => true
  | _ :: _, [] => false
  | a :: as, b :: bs => if a = b then lexLt as bs else decide (a < b)

/-- Insertion into an ordered duplicate-free list of strings: the effect of
`std::set<std::string>::insert`. -/
def insertStr (x : List Char) : List (List Char) → List (List Char)
  | [] => [x]
  | y :: ys =>
    if lexLt x y then x :: y :: ys
    else if lexLt y x then y :: insertStr x ys
    else y :: ys

/-- The value of a digit character. -/
def digitVal (c : Char) : Int := (c.toNat : Int) - 48

/-- The scaled value of up to three fraction digits: `floor(0.d₁d₂d₃ * 1000)`. -/
def fracVal : List Char → Int
  | [] => 0
  | [a] => 100 * digitVal a
  | [a, b] => 100 * digitVal a + 10 * digitVal b
  | a :: b :: c :: _ => 100 * digitVal a + 10 * digitVal b + digitVal c

/-- `std::regex_match` of one trimmed segment against
`q\s*=\s*([01](\.[0-9]{0,3})?)`, returning `floor(std::stof(m[1]) * 1000)`
when it matches.  The numeric conversion is modelled by exact decimal
arithmetic on the matched numeral. -/
def qMatch (l : List Char) : Option Int :=
  match l with
  | 'q' :: rest =>
    match rest.dropWhile isWS with
    | '=' :: r2 =>
      match r2.dropWhile isWS with
      | d :: r4 =>
        if d ≠ '0' ∧ d ≠ '1' then none
        else
          let di : Int := if d = '1' then 1000 else 0
          match r4 with
          | [] => some di
          | '.' :: ds =>
            if ds.length ≤ 3 ∧ ds.all Char.isDigit then some (di + fracVal ds)
            else none
          | _ => none
      | [] => none
    | _ => none
  | _ => none

/-- `cxxhttp::qvalue`: a quality-tagged value.  `attributes` and
`extensions` are the iteration sequences of the corresponding
`std::set<std::string>` members; `q` is the C++ `int` member. -/
structure qvalue where
  value : List Char
  attributes : List (List Char)
  extensions : List (List Char)
  q : Int
deriving DecidableEq

/-- One iteration of the loop in the `qvalue` string constructor. -/
def qstep (st : qvalue) (s : List Char) : qvalue :=
  if st.value = [] then { st with value := s }
  else if st.q = -1 then
    match qMatch s with
    | some n => { st with q := n }
    | none => { st with attributes := insertStr s st.attributes }
  else { st with extensions := insertStr s st.extensions }

/-- The `qvalue(const std::string &)` constructor: split on `;`, fold the
segments, default the quality to 1000 when a value was seen but no q, and
clamp the quality into [0, 1000]. -/
def parseQvalue (val : String) : qvalue :=
  let st := (splitSep ';' val.data).foldl qstep ⟨[], [], [], -1⟩
  let q1 : Int := if st.value ≠ [] ∧ st.q = -1 then 1000 else st.q
  { st with q := max (min q1 1000) 0 }

/-- `qvalue::operator std::string`: the value with its attributes appended,
each preceded by a semicolon. -/
def recombine (v : qvalue) : List Char :=
  if v.value = [] then v.value
  else v.attributes.foldl (fun acc a => acc ++ ';' :: a) v.value

/-- `qvalue::hasWildcard`: some `/`-delimited segment of the value is `*`. -/
def hasWildcard (v : qvalue) : Bool :=
  (splitSep '/' v.value).any (· = ['*'])

/-- The language-subtag loop of `qvalue::operator<`: compare leading subtags
component-wise, and when one list is exhausted compare the lengths. -/
def tagLt : List (List Char) → List (List Char) → Bool
  | [], [] => false
  | [], _ :: _ => true
  | _ :: _, [] => false
  | a :: as, b :: bs => if a ≠ b then lexLt a b else tagLt as bs

/-- `qvalue::operator<`: quality first, then the attribute-count rule for
textually equal values, then the MIME-type rules for two `/`-segments, the
language-subtag rules for one segment, and lexical comparison of the
recombined strings as the final fallback. -/
def qlt (a b : qvalue) : Bool :=
  if a.q < b.q then true
  else if b.q < a.q then false
  else if a.value = b.value ∧ a.attributes.length < b.attributes.length then true
  else
    let sa := splitSep '/' a.value
    let sb := splitSep '/' b.value
    if sa.length ≠ sb.length then decide (sa.length < sb.length)
    else
      match sa, sb with
      | [a0, a1], [b0, _] =>
        if a0 = ['*'] then decide (b0 ≠ ['*'])
        else if b0 = ['*'] then false
        else if a0 = b0 then decide (a1 = ['*'])
        else lexLt (recombine a) (recombine b)
      | [_], [_] => tagLt (splitSep '-' a.value) (splitSep '-' b.value)
      | _, _ => lexLt (recombine a) (recombine b)

/-- The segment loop of `qvalue::operator==`: every corresponding pair of
segments is equal or has a `*` on one side. -/
def segsMatch : List (List Char) → List (List Char) → Bool
  | [], _ => true
  | _ :: _, [] => true
  | a :: as, b :: bs =>
    if a ≠ b ∧ a ≠ ['*'] ∧ b ≠ ['*'] then false else segsMatch as bs

/-- `qvalue::operator==`: exact value-and-attribute equality, or, when
exactly one side has a wildcard, segment-wise matching of the `/`-split
values of equal segment count. -/
def qeq (a b : qvalue) : Bool :=
  if a.value = b.value ∧ a.attributes = b.attributes then true
  else if hasWildcard a = hasWildcard b then false
  else
    let sa := splitSep '/' a.value
    let sb := splitSep '/' b.value
    if sa.length = sb.length ∧ sa ≠ [] then segsMatch sa sb else false

/-- Insertion into an ordered list of `qvalue`s under `operator<`: the
effect of `std::set<qvalue>::insert` (nothing is inserted when an
equivalent element is present). -/
def setInsert (x : qvalue) : List qvalue → List qvalue
  | [] => [x]
  | y :: ys =>
    if qlt x y then x :: y :: ys
    else if qlt y x then y :: setInsert x ys
    else y :: ys

/-- `std::set<qvalue>` built from a range: insert the elements in order. -/
def setOfList (l : List qvalue) : List qvalue :=
  l.foldl (fun s x => setInsert x s) []

/-- `cxxhttp::negotiate(std::set<qvalue>, std::set<qvalue>)`.  The sets are
the iteration sequences; `*(is.rbegin())` is the last element of the ordered
list.  The combined quality uses C++ `int` division, `Int.tdiv`. -/
def negotiateSets (theirs mine : List qvalue) : String :=
  if mine.length = 0 then ""
  else if theirs.length = 0 then
    match mine.reverse.find? (fun v => !hasWildcard v) with
    | some v => ⟨recombine v⟩
    | none => ""
  else
    let is := theirs.foldl (fun acc a =>
      mine.foldl (fun acc2 b =>
        if qeq a b then
          let q := Int.tdiv (a.q * b.q) 1000
          if hasWildcard a then setInsert { b with q := q } acc2
          else if hasWildcard b then setInsert { a with q := q } acc2
          else setInsert { b with q := q } acc2
        else acc2) acc) []
    match is.getLast? with
    | some v => ⟨recombine v⟩
    | none => ""

/-- `cxxhttp::negotiate(std::vector<std::string>, std::vector<std::string>)`:
parse every element and delegate to the set version. -/
def negotiateLists (theirs mine : List String) : String :=
  negotiateSets (setOfList (theirs.map parseQvalue)) (setOfList (mine.map parseQvalue))

/-- `cxxhttp::negotiate(const std::string &, const std::string &)`: split on
commas and delegate. -/
def negotiateStr (theirs mine : String) : String :=
  negotiateLists ((splitSep ',' theirs.data).map fun l => ⟨l⟩)
    ((splitSep ',' mine.data).map fun l => ⟨l⟩)

/-! ## http-status.h -/

namespace http

/-- The line-terminator class of ECMAScript regexes: what `.` does not match
(the code points U+2028 and U+2029 do not occur in the byte strings at
hand). -/
def isLineTerm (c : Char) : Bool := c = '\n' || c = '\r'

/-- The part of the status-line regex after the protocol and the first
`\s+` run: `([0-9]{3})\s+(.*)\s*` against the rest of the line.  Greedy
matching makes every `\s+`/`\s*` run maximal and the `(.*)` capture the
longest line-terminator-free prefix whose remainder is all whitespace. -/
def statusTail (r1 : List Char) : Option (Nat × String) :=
  match r1 with
  | d1 :: d2 :: d3 :: r2 =>
    if ¬ (d1.isDigit ∧ d2.isDigit ∧ d3.isDigit) then none
    else if r2.takeWhile isWS = [] then none
    else
      let r3 := r2.dropWhile isWS
      if (r3.dropWhile fun x => !isLineTerm x).all isWS then
        some ((d1.toNat - 48) * 100 + (d2.toNat - 48) * 10 + (d3.toNat - 48),
              ⟨r3.takeWhile fun x => !isLineTerm x⟩)
      else none
  | _ => none

/-- `std::regex_match` of a line against the status-line regex
`(HTTP/1.[01])\s+([0-9]{3})\s+(.*)\s*` of `statusLine::statusLine(const
std::string &)` — note the unescaped `.` after `HTTP/1`, which matches any
character but a line terminator.  Returns the protocol capture, the numeric
value of the three-digit code capture, and the description capture. -/
def statusRegexMatch (l : List Char) : Option (String × Nat × String) :=
  match l with
  | p0 :: p1 :: p2 :: p3 :: p4 :: p5 :: c :: v :: rest =>
    if [p0, p1, p2, p3, p4, p5] = ['H', 'T', 'T', 'P', '/', '1'] ∧
        isLineTerm c = false ∧ (v = '0' ∨ v = '1') ∧ rest.takeWhile isWS ≠ [] then
      match statusTail (rest.dropWhile isWS) with
      | some (code, desc) => some (⟨[p0, p1, p2, p3, p4, p5, c, v]⟩, code, desc)
      | none => none
    else none
  | _ => none

/-- `cxxhttp::http::statusLine`: a broken-out status line. -/
structure statusLine where
  code : Nat
  protocol : String
  description : String
deriving DecidableEq

/-- The parsing constructor `statusLine::statusLine(const std::string &)`:
the code stays 0 unless the regex matches (`std::stoi` of a three-digit
capture cannot throw). -/
def parseStatusLine (line : String) : statusLine :=
  match statusRegexMatch line.data with
  | some (p, c, d) => ⟨c, p, d⟩
  | none => ⟨0, "", ""⟩

/-- Modelled from the spec: the static status-code → description table of
http-constants.h, which is not among the repository files at hand.  The
spec fixes `100 ↦ Continue`, `200 ↦ OK`, `404 ↦ Not Found` through its
end-to-end reply scenarios and `"Other Status"` as the default for unknown
codes (`statusDescription`). -/
def statusDescription (status : Nat) : String :=
  if status = 100 then "Continue"
  else if status = 200 then "OK"
  else if status = 404 then "Not Found"
  else "Other Status"

/-- `statusLine::statusLine(unsigned, const std::string &)`: the format
constructor, with the description looked up in the status table. -/
def makeStatusLine (pStatus : Nat) (pProtocol : String) : statusLine :=
  ⟨pStatus, pProtocol, statusDescription pStatus⟩

/-- `statusLine::valid`. -/
def statusLine.valid (s : statusLine) : Bool :=
  decide (100 ≤ s.code) && decide (s.code < 600)

/-- `statusLine::operator std::string`: the wire form, with the canned
fallback line for invalid instances. -/
def statusLine.toWire (s : statusLine) : String :=
  if s.valid then s.protocol ++ " " ++ Nat.repr s.code ++ " " ++ s.description ++ "\r\n"
  else "HTTP/1.1 500 Bad Status Line\r\n"

/-! ## http-session.h (modelled from the spec) -/

/-- Modelled from the spec: the counter fields of `http::sessionData`
(http-session.h is not among the repository files at hand; src/test-case/
session.cpp sets `requests` and `replies` directly). -/
structure sessionData where
  requests : Nat
  replies : Nat

/-- Modelled from the spec: `sessionData::queries`, the pending-transactions
accessor — "sum of `requestsReceived` and `repliesSent`", preserved verbatim
per observed behaviour (src/test-case/session.cpp expects 1 request and 2
replies to give 3). -/
def sessionData.queries (s : sessionData) : Nat := s.requests + s.replies

/-- One `key: value` header line per entry, in insertion order. -/
def renderHeaders (hs : List (String × String)) : String :=
  hs.foldl (fun acc kv => acc ++ kv.1 ++ ": " ++ kv.2 ++ "\r\n") ""

/-- Modelled from the spec: `sessionData::generateReply` (http-session.h is
not among the repository files at hand).  Status line first; an
informational status (100–199) gets only the trailing blank line, headers
and body ignored; otherwise `Connection: close` for statuses ≥ 400, then
`Content-Length`, the caller headers, the blank line and the body. -/
def generateReply (status : Nat) (header : List (String × String)) (body : String) : String :=
  let line := (makeStatusLine status "HTTP/1.1").toWire
  if 100 ≤ status ∧ status < 200 then line ++ "\r\n"
  else
    line ++ (if 400 ≤ status then "Connection: close\r\n" else "")
      ++ "Content-Length: " ++ Nat.repr body.length ++ "\r\n"
      ++ renderHeaders header ++ "\r\n" ++ body

end http

open http

/-! ## Helper lemmas about list scanning -/

theorem takeWhile_append_all {α : Type} (p : α → Bool) (l r : List α)
    (h : ∀ a ∈ l, p a = true) : (l ++ r).takeWhile p = l ++ r.takeWhile p := by
  induction l with
  | nil => simp
  | cons a as ih =>
    have ha : p a = true := h a (by simp)
    simp [List.takeWhile_cons, ha, ih fun x hx => h x (by simp [hx])]

theorem dropWhile_append_all {α : Type} (p : α → Bool) (l r : List α)
    (h : ∀ a ∈ l, p a = true) : (l ++ r).dropWhile p = r.dropWhile p := by
  induction l with
  | nil => simp
  | cons a as ih =>
    have ha : p a = true := h a (by simp)
    simp [List.dropWhile_cons, ha, ih fun x hx => h x (by simp [hx])]

theorem isDigit_not_isWS {c : Char} (h : c.isDigit = true) : isWS c = false := by
  cases hc : isWS c
  · rfl
  · exfalso
    unfold isWS at hc
    simp only [Bool.or_eq_true, decide_eq_true_eq] at hc
    rcases hc with ((((h' | h') | h') | h') | h') | h' <;> subst h' <;>
      exact absurd h (by decide)

theorem statusDescription_no_lineterm (c : Nat) :
    ∀ ch ∈ (statusDescription c).data, isLineTerm ch = false := by
  unfold statusDescription
  split_ifs <;> decide

/-! ## Helper lemmas about the status-line regex -/

/-- Decimal printing of a code in [100, 600) yields exactly three digit
characters that decode back to the code. -/
def reprDigits3 (c : Nat) : Bool :=
  match (Nat.repr c).data with
  | [d1, d2, d3] => d1.isDigit && d2.isDigit && d3.isDigit
      && decide ((d1.toNat - 48) * 100 + (d2.toNat - 48) * 10 + (d3.toNat - 48) = c)
  | _ => false

set_option maxRecDepth 10000 in
theorem reprDigits3_holds : ∀ c, c < 600 → 100 ≤ c → reprDigits3 c = true := by decide

theorem statusTail_digits (d1 d2 d3 : Char) (hd1 : d1.isDigit = true)
    (hd2 : d2.isDigit = true) (hd3 : d3.isDigit = true) (desc : List Char)
    (hdesc : ∀ ch ∈ desc, isLineTerm ch = false) :
    ∃ dd, statusTail (d1 :: d2 :: d3 :: ' ' :: (desc ++ ['\r', '\n'])) =
      some ((d1.toNat - 48) * 100 + (d2.toNat - 48) * 10 + (d3.toNat - 48), dd) := by
  have hWSsp : isWS ' ' = true := by decide
  simp only [statusTail]
  rw [if_neg (by simp [hd1, hd2, hd3])]
  rw [if_neg (by simp [List.takeWhile_cons, hWSsp])]
  have hr3 : (' ' :: (desc ++ ['\r', '\n'])).dropWhile isWS =
      (desc ++ ['\r', '\n']).dropWhile isWS := by
    simp [List.dropWhile_cons, hWSsp]
  rcases hcase : desc.dropWhile isWS with _ | ⟨e, t⟩
  · have hr3' : (desc ++ ['\r', '\n']).dropWhile isWS = [] := by
      rw [List.dropWhile_append, hcase]
      decide
    rw [hr3, hr3']
    exact ⟨⟨[].takeWhile fun x => !isLineTerm x⟩, by rw [if_pos (by decide)]⟩
  · have hsub : (e :: t) ⊆ desc := by
      rw [← hcase]
      exact (List.dropWhile_sublist isWS).subset
    have hnt : ∀ x ∈ e :: t, (!isLineTerm x) = true := by
      intro x hx
      rw [hdesc x (hsub hx)]
      rfl
    have hr3' : (desc ++ ['\r', '\n']).dropWhile isWS = (e :: t) ++ ['\r', '\n'] := by
      rw [List.dropWhile_append, hcase]
      simp
    have hdrop : ((e :: t) ++ ['\r', '\n']).dropWhile (fun x => !isLineTerm x) =
        ['\r', '\n'] := by
      rw [dropWhile_append_all _ _ _ hnt]
      decide
    rw [hr3, hr3']
    refine ⟨⟨((e :: t) ++ ['\r', '\n']).takeWhile fun x => !isLineTerm x⟩, ?_⟩
    rw [if_pos (by rw [hdrop]; decide)]

theorem statusRegexMatch_wire (d1 d2 d3 : Char) (hd1 : d1.isDigit = true)
    (hd2 : d2.isDigit = true) (hd3 : d3.isDigit = true) (desc : List Char)
    (hdesc : ∀ ch ∈ desc, isLineTerm ch = false) :
    ∃ dd, statusRegexMatch ('H' :: 'T' :: 'T' :: 'P' :: '/' :: '1' :: '.' :: '1' :: ' ' ::
        d1 :: d2 :: d3 :: ' ' :: (desc ++ ['\r', '\n'])) =
      some ("HTTP/1.1",
        (d1.toNat - 48) * 100 + (d2.toNat - 48) * 10 + (d3.toNat - 48), dd) := by
  have hWSsp : isWS ' ' = true := by decide
  obtain ⟨dd, hdd⟩ := statusTail_digits d1 d2 d3 hd1 hd2 hd3 desc hdesc
  refine ⟨dd, ?_⟩
  simp only [statusRegexMatch]
  have hcond : True ∧ isLineTerm '.' = false ∧ (('1' : Char) = '0' ∨ True) ∧
      List.takeWhile isWS (' ' :: d1 :: d2 :: d3 :: ' ' :: (desc ++ ['\r', '\n'])) ≠ [] := by
    refine ⟨trivial, by decide, Or.inr trivial, ?_⟩
    simp [List.takeWhile_cons, hWSsp]
  rw [if_pos hcond]
  have hrest : (' ' :: d1 :: d2 :: d3 :: ' ' :: (desc ++ ['\r', '\n'])).dropWhile isWS =
      d1 :: d2 :: d3 :: ' ' :: (desc ++ ['\r', '\n']) := by
    simp [List.dropWhile_cons, hWSsp, isDigit_not_isWS hd1]
  rw [hrest, hdd]

/-! ## Claim theorems: status lines -/

/-- C6: the status-line regex in the source spells the protocol as
`HTTP/1.[01]` with an unescaped dot, so `"HTTP/1Q1 200 OK"` — which the
claimed regex `^(HTTP/1\.[01])\s+([0-9]{3})\s+(.*)\s*$` rejects — is
accepted, with code 200, protocol `"HTTP/1Q1"` and `valid() = true`,
although the constructor's documentation says only HTTP/1.0 and HTTP/1.1
lines are accepted.  A truly non-matching line keeps code 0, is invalid,
and formats to the canned fallback line. -/
theorem statusLine_unescaped_dot_accepts :
    (parseStatusLine "HTTP/1Q1 200 OK").code = 200 ∧
    (parseStatusLine "HTTP/1Q1 200 OK").protocol = "HTTP/1Q1" ∧
    (parseStatusLine "HTTP/1Q1 200 OK").valid = true ∧
    (parseStatusLine "not a status line").code = 0 ∧
    (parseStatusLine "not a status line").valid = false ∧
    (parseStatusLine "not a status line").toWire = "HTTP/1.1 500 Bad Status Line\r\n" := by
  refine ⟨by decide, by decide, by decide, by decide, by decide, by decide⟩

/-- C7: for every code in [100, 600) the format constructor yields a valid
status line, and parsing its wire form reproduces the code and the
protocol. -/
theorem statusLine_roundtrip (c : Nat) (h1 : 100 ≤ c) (h2 : c < 600) :
    (makeStatusLine c "HTTP/1.1").valid = true ∧
    (parseStatusLine ((makeStatusLine c "HTTP/1.1").toWire)).code = c ∧
    (parseStatusLine ((makeStatusLine c "HTTP/1.1").toWire)).protocol =
      (makeStatusLine c "HTTP/1.1").protocol := by
  have hv : (makeStatusLine c "HTTP/1.1").valid = true := by
    unfold makeStatusLine statusLine.valid
    simp [h1, h2]
  refine ⟨hv, ?_⟩
  have hb := reprDigits3_holds c h2 h1
  unfold reprDigits3 at hb
  rcases hrep : (Nat.repr c).data with _ | ⟨d1, _ | ⟨d2, _ | ⟨d3, _ | ⟨d4, t⟩⟩⟩⟩ <;>
      rw [hrep] at hb <;> try simp at hb
  obtain ⟨⟨⟨hd1, hd2⟩, hd3⟩, hcode⟩ := hb
  have hwire : ((makeStatusLine c "HTTP/1.1").toWire).data =
      'H' :: 'T' :: 'T' :: 'P' :: '/' :: '1' :: '.' :: '1' :: ' ' ::
        d1 :: d2 :: d3 :: ' ' :: ((statusDescription c).data ++ ['\r', '\n']) := by
    have hH : ("HTTP/1.1" : String).data = ['H', 'T', 'T', 'P', '/', '1', '.', '1'] := by
      decide
    have hsp : (" " : String).data = [' '] := by decide
    have hcrlf : ("\r\n" : String).data = ['\r', '\n'] := by decide
    unfold statusLine.toWire
    rw [if_pos hv]
    show ((("HTTP/1.1" : String) ++ " " ++ Nat.repr c ++ " " ++
        statusDescription c ++ "\r\n")).data = _
    simp only [String.data_append, hrep, hH, hsp, hcrlf]
    simp [List.append_assoc]
  obtain ⟨dd, hm⟩ := statusRegexMatch_wire d1 d2 d3 hd1 hd2 hd3
      (statusDescription c).data (statusDescription_no_lineterm c)
  unfold parseStatusLine
  rw [hwire, hm]
  exact ⟨hcode, rfl⟩

/-- C7 witness: code 404 round-trips. -/
theorem statusLine_roundtrip_witness :
    (makeStatusLine 404 "HTTP/1.1").valid = true ∧
    (parseStatusLine ((makeStatusLine 404 "HTTP/1.1").toWire)).code = 404 ∧
    (parseStatusLine ((makeStatusLine 404 "HTTP/1.1").toWire)).protocol =
      (makeStatusLine 404 "HTTP/1.1").protocol :=
  statusLine_roundtrip 404 (by decide) (by decide)

/-! ## Claim theorems: session -/

/-- C8: the pending-transactions accessor `queries()` returns the sum of
the requests-received counter and the replies-sent counter; in particular
1 request and 2 replies give 3, as the session test expects. -/
theorem sessionData_queries_sum :
    (∀ s : sessionData, s.queries = s.requests + s.replies) ∧
    sessionData.queries ⟨1, 2⟩ = 3 :=
  ⟨fun _ => rfl, rfl⟩

/-- C9: `generateReply` emits only the status line and the blank line for
informational statuses (100–199), ignoring headers and body; otherwise it
emits `Connection: close` first when the status is at least 400, then a
`Content-Length` header equal to the body length, then the caller headers,
the blank line and the body — matching the literal reply scenarios of the
session test. -/
theorem generateReply_spec :
    (∀ (s : Nat) (hs : List (String × String)) (b : String), 100 ≤ s → s < 200 →
      generateReply s hs b = (makeStatusLine s "HTTP/1.1").toWire ++ "\r\n") ∧
    (∀ (s : Nat) (hs : List (String × String)) (b : String), ¬ (100 ≤ s ∧ s < 200) →
      generateReply s hs b =
        (makeStatusLine s "HTTP/1.1").toWire
          ++ (if 400 ≤ s then "Connection: close\r\n" else "")
          ++ "Content-Length: " ++ Nat.repr b.length ++ "\r\n"
          ++ renderHeaders hs ++ "\r\n" ++ b) ∧
    generateReply 100 [] "" = "HTTP/1.1 100 Continue\r\n\r\n" ∧
    generateReply 100 [] "ignored" = "HTTP/1.1 100 Continue\r\n\r\n" ∧
    generateReply 200 [] "foo" = "HTTP/1.1 200 OK\r\nContent-Length: 3\r\n\r\nfoo" ∧
    generateReply 404 [] "sorry" =
      "HTTP/1.1 404 Not Found\r\nConnection: close\r\nContent-Length: 5\r\n\r\nsorry" := by
  refine ⟨fun s hs b ha hb => ?_, fun s hs b h => ?_, by decide, by decide, by decide,
    by decide⟩
  · unfold generateReply
    rw [if_pos ⟨ha, hb⟩]
  · unfold generateReply
    rw [if_neg h]

/-! ## Claim theorems: negotiation -/

/-- C1: the matching relation `qvalue::operator==` returns true for two
identical wildcard values before its wildcard check runs (`valueMatch &&
attributesMatch` short-circuits), so `negotiate({"*/*"}, {"*/*"})` returns
`"*/*"` — a value with a wildcard — although the function's own
documentation promises it never returns one. -/
theorem negotiate_returns_wildcard_bug :
    negotiateLists ["*/*"] ["*/*"] = "*/*" ∧
    hasWildcard (parseQvalue "*/*") = true ∧
    qeq (parseQvalue "*/*") (parseQvalue "*/*") = true := by
  refine ⟨by decide, by decide, by decide⟩

/-- C2 counterexample: `negotiate({"en-US"}, {"en"})` does not return
`"en"`; `qvalue::operator==` has no language-tag prefix rule, so the pair
does not match. -/
theorem negotiate_language_prefix_counterexample :
    (negotiateLists ["en-US"] ["en"] = "en") ↔ False := by decide

/-- C2 amended: `negotiate({"en-US"}, {"en"})` finds no match — the match
relation accepts only exact value-and-attribute equality or a one-sided
wildcard — and returns the empty string. -/
theorem negotiate_language_prefix_returns_empty :
    negotiateLists ["en-US"] ["en"] = "" ∧
    qeq (parseQvalue "en-US") (parseQvalue "en") = false := by
  refine ⟨by decide, by decide⟩

/-- C3 counterexample: `negotiate({}, {"text/html;q=1"})` does not return
the empty string. -/
theorem negotiate_empty_theirs_counterexample :
    (negotiateLists [] ["text/html;q=1"] = "") ↔ False := by decide

/-- C3 amended: with an empty client set the code scans the server set from
highest preference downward and returns the first non-wildcarded value, so
`negotiate({}, {"text/html;q=1"})` returns `"text/html"`. -/
theorem negotiate_empty_theirs_returns_mine :
    negotiateLists [] ["text/html;q=1"] = "text/html" := by decide

/-- C4 counterexample: `qvalue::operator<` is not irreflexive —
`qvalue("text/*") < qvalue("text/*")` holds, because the `type/*` branch
answers `sa[1] == "*"` without noticing that both sides are the same — so
it is not a strict total order. -/
theorem qlt_not_irreflexive :
    qlt (parseQvalue "text/*") (parseQvalue "text/*") = true := by decide

/-- C4 amended: quality ascending is the primary key of `qvalue::operator<`
— `a.q < b.q` implies `a < b`, and `a < b` implies `a.q ≤ b.q` — but the
comparator is not a strict total order: it is not irreflexive (for example
`qvalue("text/*") < qvalue("text/*")`). -/
theorem qlt_quality_primary_key :
    (∀ a b : qvalue, a.q < b.q → qlt a b = true) ∧
    (∀ a b : qvalue, qlt a b = true → a.q ≤ b.q) ∧
    qlt (parseQvalue "text/*") (parseQvalue "text/*") = true := by
  refine ⟨fun a b h => by simp [qlt, h], fun a b h => ?_, by decide⟩
  by_contra hc
  rw [not_le] at hc
  rw [qlt, if_neg (by omega), if_pos hc] at h
  exact Bool.false_ne_true h

/-- The segment loop of `operator==` is symmetric in its two arguments. -/
theorem segsMatch_symm (x : List (List Char)) :
    ∀ y, segsMatch x y = segsMatch y x := by
  induction x with
  | nil => intro y; cases y <;> rfl
  | cons a as ih =>
    intro y
    cases y with
    | nil => rfl
    | cons b bs =>
      show segsMatch (a :: as) (b :: bs) = segsMatch (b :: bs) (a :: as)
      simp only [segsMatch]
      by_cases h1 : a = b
      · subst h1; simp [ih]
      · by_cases h2 : a = ['*'] <;> by_cases h3 : b = ['*'] <;>
          simp [h1, Ne.symm h1, h2, h3, ih]

/-- C10: the match relation `qvalue::operator==` is symmetric: every branch
— exact equality, the both-or-neither wildcard rejection, and the
segment-wise wildcard walk — treats the two sides alike. -/
theorem qeq_symm (a b : qvalue) : qeq a b = qeq b a := by
  simp only [qeq]
  by_cases h1 : a.value = b.value ∧ a.attributes = b.attributes
  · rw [if_pos h1, if_pos ⟨h1.1.symm, h1.2.symm⟩]
  · have h1' : ¬ (b.value = a.value ∧ b.attributes = a.attributes) := fun h =>
      h1 ⟨h.1.symm, h.2.symm⟩
    rw [if_neg h1, if_neg h1']
    by_cases h2 : hasWildcard a = hasWildcard b
    · rw [if_pos h2, if_pos h2.symm]
    · have h2' : ¬ hasWildcard b = hasWildcard a := fun h => h2 h.symm
      rw [if_neg h2, if_neg h2']
      by_cases h3 : (splitSep '/' a.value).length = (splitSep '/' b.value).length
      · by_cases h4 : splitSep '/' a.value = []
        · have h5 : splitSep '/' b.value = [] := by
            have := h3
            rw [h4] at this
            exact List.length_eq_zero.mp this.symm
          rw [if_neg (by simp [h4]), if_neg (by simp [h5])]
        · have h5 : splitSep '/' b.value ≠ [] := by
            intro h5
            rw [h5] at h3
            exact h4 (List.length_eq_zero.mp h3)
          rw [if_pos ⟨h3, h4⟩, if_pos ⟨h3.symm, h5⟩, segsMatch_symm]
      · have h3' : ¬ ((splitSep '/' a.value).length = (splitSep '/' b.value).length ∧
            splitSep '/' a.value ≠ []) := fun h => h3 h.1
        have h3'' : ¬ ((splitSep '/' b.value).length = (splitSep '/' a.value).length ∧
            splitSep '/' b.value ≠ []) := fun h => h3 h.1.symm
        rw [if_neg h3', if_neg h3'']

/-! ## Claim theorems: q-value parsing -/

/-- A constructor-loop step on a segment the q-regex does not match leaves
the q sentinel at -1. -/
theorem qstep_preserves_sentinel (st : qvalue) (s : List Char)
    (h : qMatch s = none) (hq : st.q = -1) : (qstep st s).q = -1 := by
  unfold qstep
  by_cases hv : st.value = [] <;> simp [hv, hq, h]

/-- Folding the constructor loop over segments none of which the q-regex
matches leaves the q sentinel at -1. -/
theorem foldl_qstep_sentinel :
    ∀ (segs : List (List Char)) (st : qvalue),
      (∀ s ∈ segs, qMatch s = none) → st.q = -1 →
      (segs.foldl qstep st).q = -1 := by
  intro segs
  induction segs with
  | nil => intro st _ hq; simpa using hq
  | cons s rest ih =>
    intro st h hq
    simp only [List.foldl_cons]
    exact ih _ (fun x hx => h x (by simp [hx]))
      (qstep_preserves_sentinel st s (h s (by simp)) hq)

/-- C5 counterexample: the empty string has no `;`-segment at all — so none
is recognized as a q parameter — yet its parsed quality is 0, not 1000: the
sentinel -1 survives the value-nonempty check and is clamped to 0. -/
theorem parseQvalue_empty_quality_zero :
    splitSep ';' "".data = [] ∧ (parseQvalue "").q = 0 ∧ (parseQvalue "").q ≠ 1000 := by
  refine ⟨by decide, by decide, by decide⟩

/-- C5 amended: for every input string none of whose `;`-segments matches
the q-regex, if the parsed value is non-empty, the parsed quality is
1000. -/
theorem parseQvalue_no_q_quality_1000 (s : String)
    (hq : ∀ seg ∈ splitSep ';' s.data, qMatch seg = none)
    (hv : (parseQvalue s).value ≠ []) :
    (parseQvalue s).q = 1000 := by
  have hfold := foldl_qstep_sentinel (splitSep ';' s.data) ⟨[], [], [], -1⟩ hq rfl
  have hval : (parseQvalue s).value =
      ((splitSep ';' s.data).foldl qstep ⟨[], [], [], -1⟩).value := rfl
  have hq2 : (parseQvalue s).q =
      max (min (if ((splitSep ';' s.data).foldl qstep ⟨[], [], [], -1⟩).value ≠ [] ∧
            ((splitSep ';' s.data).foldl qstep ⟨[], [], [], -1⟩).q = -1 then 1000
          else ((splitSep ';' s.data).foldl qstep ⟨[], [], [], -1⟩).q) 1000) 0 := rfl
  rw [hval] at hv
  rw [hq2, if_pos ⟨hv, hfold⟩]
  decide

/-- C5 witness: `"text/html"` has no q segment and a non-empty value, and
parses with quality 1000. -/
theorem parseQvalue_no_q_quality_1000_witness :
    (parseQvalue "text/html").q = 1000 :=
  parseQvalue_no_q_quality_1000 "text/html" (by decide) (by decide)

end Cxxhttp
